import Mathlib

/-!
# Verification of the LOGOS ontological knowledge engine core

Shallow embedding, in Lean 4, of the core components of the
`ProjectLOGOS/logos_system_dev1` repository:

* the modal classifier and coherence scalar
  (`TETRAGNOS/lambda_engine/Λ_onto_calculus_engine.py`, `trinity_to_modal`;
  `THONOC/fractal orbital predictor/trinity_vector.py`, `calculate_modal_status`);
* the escape-time positioner (`FractalMapping.map_to_complex`, `compute_iterations`);
* the typed λ-expression kernel (`TETRAGNOS/lambda_engine/logos_lambda_core.py`:
  `TypeChecker.check_type`, `Evaluator.evaluate`, `Evaluator.substitute`);
* the knowledge store (`ARCHON/Data Storage/knowledge_store.py`:
  `FractalKnowledgeStore.add_relation`, `get_relations`, `store_node`, `get_node`,
  `KDTree.insert`, `KDTree.k_nearest_neighbors`).

Python floats are modeled by exact rationals (`ℚ`); every comparison
appearing in the embedded code is evaluated far from any binary-rounding
boundary or on literals whose float comparison agrees with the rational one,
so the rational model is faithful for the properties proved here.
-/

namespace Logos

/-! ## Modal classifier and coherence

From `Λ_onto_calculus_engine.py`, `LambdaEngine.trinity_to_modal` (lines 553-578):

```python
ideal_g = existence * truth
coherence = goodness / ideal_g if ideal_g > 0 else 0.0
if goodness >= ideal_g:
    coherence = 1.0
if truth > 0.95 and existence > 0.9 and coherence > 0.9:
    return "necessary"
elif truth > 0.5 and existence > 0.5:
    return "actual"
elif truth > 0.05 and existence > 0.05:
    return "possible"
else:
    return "impossible"
```
-/

/-- The coherence scalar exactly as computed inside `trinity_to_modal`:
`ideal_g = existence * truth`; `coherence = goodness / ideal_g` if `ideal_g > 0`
else `0.0`; then overridden to `1.0` whenever `goodness >= ideal_g`. -/
def coherence (existence goodness truth : ℚ) : ℚ :=
  let ideal_g := existence * truth
  let c := if ideal_g > 0 then goodness / ideal_g else 0
  if goodness ≥ ideal_g then 1 else c

/-- `LambdaEngine.trinity_to_modal`: modal status from a trinity vector.
All threshold comparisons in the source are strict (`>`). -/
def trinity_to_modal (existence goodness truth : ℚ) : String :=
  if truth > 95/100 ∧ existence > 9/10 ∧ coherence existence goodness truth > 9/10 then
    "necessary"
  else if truth > 1/2 ∧ existence > 1/2 then "actual"
  else if truth > 1/20 ∧ existence > 1/20 then "possible"
  else "impossible"

/-- `TrinityVector.calculate_modal_status` from
`THONOC/fractal orbital predictor/trinity_vector.py` (lines 31-39):
`coh = goodness / (existence*truth + 1e-6)`, then thresholds
`truth > 0.9 ∧ coh > 0.9`, `truth > 0.5`, `truth > 0.1`, first match wins. -/
def calculate_modal_status (existence goodness truth : ℚ) : String × ℚ :=
  let coh := goodness / (existence * truth + 1/1000000)
  if truth > 9/10 ∧ coh > 9/10 then ("necessary", coh)
  else if truth > 1/2 then ("actual", coh)
  else if truth > 1/10 then ("possible", coh)
  else ("impossible", coh)

/-! ## Escape-time positioner

From `Λ_onto_calculus_engine.py`, `FractalMapping` (lines 422-449):

```python
def map_to_complex(self, trinity_vector):
    existence, goodness, truth = trinity_vector
    return complex(existence * truth, goodness)

def compute_iterations(self, c, max_iter=100):
    z = complex(0, 0)
    for i in range(max_iter):
        z = z * z + c
        if abs(z) > 2.0:
            return i, False
    return max_iter, True
```

Complex numbers are modeled as pairs `(re, im) : ℚ × ℚ`; the escape test
`abs(z) > 2.0` is modeled by the equivalent `re² + im² > 4`. -/

/-- Complex multiplication on `ℚ × ℚ`. -/
def cmul (a b : ℚ × ℚ) : ℚ × ℚ := (a.1 * b.1 - a.2 * b.2, a.1 * b.2 + a.2 * b.1)

/-- Complex addition on `ℚ × ℚ`. -/
def cadd (a b : ℚ × ℚ) : ℚ × ℚ := (a.1 + b.1, a.2 + b.2)

/-- Squared complex modulus; `abs z > 2` iff `normSq z > 4`. -/
def normSq (a : ℚ × ℚ) : ℚ := a.1 * a.1 + a.2 * a.2

/-- `FractalMapping.map_to_complex`: `c = (existence * truth) + goodness·i`. -/
def map_to_complex (existence goodness truth : ℚ) : ℚ × ℚ := (existence * truth, goodness)

/-- The body of the `for i in range(max_iter)` loop of `compute_iterations`:
starting at loop index `i` with `fuel` indices left, update `z ← z*z + c` and
return `some i` at the first index whose updated `z` has `abs(z) > 2`, `none`
if the loop runs out. -/
def escape_search (c : ℚ × ℚ) : ℚ × ℚ → ℕ → ℕ → Option ℕ
  | _, _, 0 => none
  | z, i, fuel + 1 =>
      let z' := cadd (cmul z z) c
      if normSq z' > 4 then some i else escape_search c z' (i + 1) fuel

/-- `FractalMapping.compute_iterations`: returns `(i, False)` from inside the
loop at the first escaping index `i`, and `(max_iter, True)` if the loop
completes. -/
def compute_iterations (c : ℚ × ℚ) (max_iter : ℕ) : ℕ × Bool :=
  match escape_search c (0, 0) 0 max_iter with
  | some i => (i, false)
  | none => (max_iter, true)

/-- Modelled from the spec: the §4.C observable contract, which is *not* the
code's loop shape — `z = 0, n = 0`; while `n < max_iter` and `|z| ≤ 2`:
`z ← z² + c`; `n += 1`; emit `(iterations = n, in_set = (n == max_iter))`.
`fuel` stands for `max_iter - n`, so `n < max_iter` iff `fuel > 0`. -/
def spec_escape_go (c : ℚ × ℚ) (max_iter : ℕ) : ℚ × ℚ → ℕ → ℕ → ℕ × Bool
  | _, n, 0 => (n, decide (n = max_iter))
  | z, n, fuel + 1 =>
      if normSq z ≤ 4 then spec_escape_go c max_iter (cadd (cmul z z) c) (n + 1) fuel
      else (n, decide (n = max_iter))

/-- Modelled from the spec: the complete §4.C procedure. -/
def spec_escape (c : ℚ × ℚ) (max_iter : ℕ) : ℕ × Bool :=
  spec_escape_go c max_iter (0, 0) 0 max_iter

/-! ### Lemmas about the escape loop -/

/-- Iterating from `z = 0` with `c = 0` keeps `z = 0`, so the loop never escapes. -/
lemma escape_search_zero : ∀ (fuel i : ℕ), escape_search (0, 0) (0, 0) i fuel = none := by
  intro fuel
  induction fuel with
  | zero => intro i; rfl
  | succ n ih =>
      intro i
      have hz : cadd (cmul ((0 : ℚ), (0 : ℚ)) (0, 0)) (0, 0) = (0, 0) := by
        norm_num [cmul, cadd]
      rw [escape_search]
      simp only [hz]
      rw [if_neg (by norm_num [normSq])]
      exact ih (i + 1)

/-- The index returned by the loop body is below the starting index plus the fuel. -/
lemma escape_search_lt (c : ℚ × ℚ) :
    ∀ (fuel : ℕ) (z : ℚ × ℚ) (i j : ℕ), escape_search c z i fuel = some j → j < i + fuel := by
  intro fuel
  induction fuel with
  | zero => intro z i j h; exact absurd h (by simp [escape_search])
  | succ n ih =>
      intro z i j h
      rw [escape_search] at h
      by_cases hesc : normSq (cadd (cmul z z) c) > 4
      · rw [if_pos hesc] at h
        obtain rfl : i = j := by simpa using h
        omega
      · rw [if_neg hesc] at h
        have := ih _ (i + 1) j h
        omega

/-- C2 helper: full characterization of the `coherence` scalar computed by
`trinity_to_modal`, for componentwise nonnegative inputs. -/
lemma coherence_spec (e g t : ℚ) (he : 0 ≤ e) (hg : 0 ≤ g) (ht : 0 ≤ t) :
    (0 ≤ coherence e g t ∧ coherence e g t ≤ 1) ∧
    (e * t ≤ g → coherence e g t = 1) ∧
    (0 < e * t → coherence e g t = min 1 (g / (e * t))) ∧
    (e * t = 0 → coherence e g t = 1) := by
  unfold coherence
  by_cases hge : e * t ≤ g
  · rw [if_pos hge]
    refine ⟨⟨zero_le_one, le_refl 1⟩, fun _ => rfl, fun hpos => ?_, fun _ => rfl⟩
    have h1 : (1 : ℚ) ≤ g / (e * t) := (one_le_div hpos).mpr hge
    exact (min_eq_left h1).symm
  · rw [if_neg hge]
    push_neg at hge
    have hpos : 0 < e * t := lt_of_le_of_lt hg hge
    rw [if_pos hpos]
    have hle : g / (e * t) ≤ 1 := le_of_lt ((div_lt_one hpos).mpr hge)
    refine ⟨⟨div_nonneg hg (le_of_lt hpos), hle⟩,
      fun hcon => absurd hcon (not_le.mpr hge), fun _ => (min_eq_right hle).symm,
      fun hzero => absurd hzero (ne_of_gt hpos)⟩

/-! ### Claims C1-C3 -/

/-- C1 (counterexample). The claim says the classifier's first rule fires when
`t ≥ 0.95`, `e ≥ 0.90` and coherence `≥ 0.90`, so that `(0.95, 0.95, 0.95)`
classifies as Necessary. The source's comparisons are strict (`>`), so at
`(0.95, 0.95, 0.95)` the first rule does not fire and the result is "actual". -/
theorem C1_counterexample :
    trinity_to_modal (95/100) (95/100) (95/100) = "actual" ∧ "actual" ≠ "necessary" := by
  constructor
  · norm_num [trinity_to_modal, coherence]
  · decide

/-- C1 (amended). `trinity_to_modal` applies its rules in order with *strict*
thresholds: Necessary requires `t > 0.95`, `e > 0.9` and coherence `> 0.9`
(so no vector with `t = 0.95` is Necessary); the four boundary scenarios
give Actual, Actual, Possible, Impossible. The variant classifier
`calculate_modal_status` (thresholds `t > 0.9 ∧ coh > 0.9`, `t > 0.5`,
`t > 0.1`, with `coh = g/(e·t + 10⁻⁶)`) gives Necessary, Actual, Impossible,
Impossible on the same four scenarios. -/
theorem C1_modal_classifier_strict :
    (∀ e g t : ℚ, t > 95/100 → e > 9/10 → coherence e g t > 9/10 →
      trinity_to_modal e g t = "necessary") ∧
    (∀ e g : ℚ, trinity_to_modal e g (95/100) ≠ "necessary") ∧
    trinity_to_modal (95/100) (95/100) (95/100) = "actual" ∧
    trinity_to_modal (6/10) (6/10) (6/10) = "actual" ∧
    trinity_to_modal (1/10) (1/10) (1/10) = "possible" ∧
    trinity_to_modal 0 0 0 = "impossible" ∧
    (calculate_modal_status (95/100) (95/100) (95/100)).1 = "necessary" ∧
    (calculate_modal_status (6/10) (6/10) (6/10)).1 = "actual" ∧
    (calculate_modal_status (1/10) (1/10) (1/10)).1 = "impossible" ∧
    (calculate_modal_status 0 0 0).1 = "impossible" := by
  refine ⟨fun e g t ht he hc => ?_, fun e g => ?_, ?_, ?_, ?_, ?_, ?_, ?_, ?_, ?_⟩
  · unfold trinity_to_modal
    rw [if_pos ⟨ht, he, hc⟩]
  · unfold trinity_to_modal
    rw [if_neg (by rintro ⟨h, -⟩; exact absurd h (lt_irrefl _))]
    split_ifs <;> decide
  · norm_num [trinity_to_modal, coherence]
  · norm_num [trinity_to_modal, coherence]
  · norm_num [trinity_to_modal, coherence]
  · norm_num [trinity_to_modal, coherence]
  · norm_num [calculate_modal_status]
  · norm_num [calculate_modal_status]
  · norm_num [calculate_modal_status]
  · norm_num [calculate_modal_status]

/-- C1 (witness): the amended theorem applied at `(1, 1, 1)`, where all strict
thresholds are met and the classification is Necessary. -/
theorem C1_witness : trinity_to_modal 1 1 1 = "necessary" :=
  C1_modal_classifier_strict.1 1 1 1 (by norm_num) (by norm_num)
    (by norm_num [coherence])

/-- C2 (counterexample). The claim says coherence is `0` when `e·t = 0`; the
source's override `if goodness >= ideal_g: coherence = 1.0` fires whenever
`g ≥ e·t`, in particular when `e·t = 0` and `g ≥ 0`, so `coherence` is `1`
there, not `0`: at `(e, g, t) = (0, 1/2, 0)` the code yields `1`. -/
theorem C2_counterexample :
    (0 : ℚ) * 0 = 0 ∧ coherence 0 (1/2) 0 = 1 ∧ (1 : ℚ) ≠ 0 := by
  refine ⟨by norm_num, by norm_num [coherence], by norm_num⟩

/-- C2 (amended). For componentwise nonnegative trinity vectors, coherence
always lies in `[0, 1]`; it equals `1` whenever `g ≥ e·t` (in particular it
equals `1`, not `0`, when `e·t = 0`); and when `e·t > 0` it equals `g/(e·t)`
clamped to `[0, 1]`. -/
theorem C2_coherence_range (e g t : ℚ) (he : 0 ≤ e) (hg : 0 ≤ g) (ht : 0 ≤ t) :
    (0 ≤ coherence e g t ∧ coherence e g t ≤ 1) ∧
    (e * t ≤ g → coherence e g t = 1) ∧
    (0 < e * t → coherence e g t = min 1 (g / (e * t))) ∧
    (e * t = 0 → coherence e g t = 1) :=
  coherence_spec e g t he hg ht

/-- C2 (witness): the amended theorem applied at `(1/2, 1/8, 1/2)` (interior
case, `g < e·t`) and at `(0, 1/4, 1)` (the `e·t = 0` case). -/
theorem C2_witness :
    coherence (1/2) (1/8) (1/2) = min 1 ((1/8) / ((1/2) * (1/2))) ∧
    coherence 0 (1/4) 1 = 1 := by
  constructor
  · exact (C2_coherence_range (1/2) (1/8) (1/2) (by norm_num) (by norm_num)
      (by norm_num)).2.2.1 (by norm_num)
  · exact (C2_coherence_range 0 (1/4) 1 (by norm_num) (by norm_num)
      (by norm_num)).2.2.2 (by norm_num)

/-- C3 (counterexample). The claim describes the loop "while `n < max_iter`
and `|z| ≤ escape_radius`: `z ← z² + c`; `n += 1`" emitting
`iterations = n, in_set = (n == max_iter)`. At `c = 3`, `max_iter = 1` that
loop emits `(1, true)`, but the code returns the zero-based index of the
escaping update and `False`: `(0, false)`. -/
theorem C3_counterexample :
    compute_iterations (3, 0) 1 = (0, false) ∧ spec_escape (3, 0) 1 = (1, true) ∧
    ((0, false) : ℕ × Bool) ≠ (1, true) := by
  refine ⟨?_, ?_, by decide⟩
  · norm_num [compute_iterations, escape_search, cmul, cadd, normSq]
  · norm_num [spec_escape, spec_escape_go, cmul, cadd, normSq]

/-- C3 (amended). `compute_iterations` iterates `z ← z² + c` from `z = 0` up to
`max_iter` times, returning on escape the *zero-based index* of the escaping
update (one less than the number of updates performed) with `in_set = false`;
the boundary consequences hold as in the claim: `max_iter = 0` yields
`(0, true)`; `c = 0` never escapes, yielding `(max_iter, true)`; `|c| > 2`
escapes on the first update, yielding `(0, false)` whenever `max_iter ≥ 1`
(iterations `0 ≤ 2`); iterations never exceed `max_iter`; and
`in_set = (iterations == max_iter)` always. The trinity vector `(1, 1, 1)`
maps to `c = 1 + i` and escapes at index `1` for every `max_iter ≥ 2`. -/
theorem C3_escape_time (c : ℚ × ℚ) (m : ℕ) :
    compute_iterations c 0 = (0, true) ∧
    (1 ≤ m → normSq c > 4 → compute_iterations c m = (0, false)) ∧
    compute_iterations (0, 0) m = (m, true) ∧
    (compute_iterations c m).1 ≤ m ∧
    ((compute_iterations c m).2 = true ↔ (compute_iterations c m).1 = m) ∧
    (2 ≤ m → compute_iterations (map_to_complex 1 1 1) m = (1, false)) := by
  refine ⟨rfl, fun hm hc => ?_, ?_, ?_, ?_, fun hm => ?_⟩
  · obtain ⟨m', rfl⟩ : ∃ m', m = m' + 1 := ⟨m - 1, by omega⟩
    have hc1 : cadd (cmul ((0 : ℚ), (0 : ℚ)) (0, 0)) c = c := by
      cases c; norm_num [cmul, cadd]
    unfold compute_iterations
    rw [escape_search, hc1, if_pos hc]
  · unfold compute_iterations
    rw [escape_search_zero m 0]
  · unfold compute_iterations
    cases h : escape_search c (0, 0) 0 m with
    | none => simp
    | some j => have := escape_search_lt c m (0, 0) 0 j h; simpa using by omega
  · unfold compute_iterations
    cases h : escape_search c (0, 0) 0 m with
    | none => simp
    | some j =>
        have hj := escape_search_lt c m (0, 0) 0 j h
        simp only []
        constructor
        · intro hfalse; exact absurd hfalse (by simp)
        · intro hej; omega
  · obtain ⟨m', rfl⟩ : ∃ m', m = m' + 2 := ⟨m - 2, by omega⟩
    have hmap : map_to_complex 1 1 1 = ((1 : ℚ), (1 : ℚ)) := by norm_num [map_to_complex]
    rw [hmap]
    unfold compute_iterations
    rw [escape_search]
    rw [show cadd (cmul ((0 : ℚ), (0 : ℚ)) (0, 0)) (1, 1) = (1, 1) by norm_num [cmul, cadd]]
    rw [if_neg (by norm_num [normSq])]
    rw [escape_search]
    rw [show cadd (cmul ((1 : ℚ), (1 : ℚ)) (1, 1)) (1, 1) = (1, 3) by norm_num [cmul, cadd]]
    rw [if_pos (by norm_num [normSq])]

/-- C3 (witness): the amended theorem applied at `c = 3, max_iter = 1`
(first-update escape) and at the trinity vector `(1, 1, 1)` with
`max_iter = 2`. -/
theorem C3_witness :
    compute_iterations (3, 0) 1 = (0, false) ∧
    compute_iterations (map_to_complex 1 1 1) 2 = (1, false) :=
  ⟨(C3_escape_time (3, 0) 1).2.1 (by norm_num) (by norm_num [normSq]),
   (C3_escape_time (3, 0) 2).2.2.2.2.2 (by norm_num)⟩

/-! ## Typed λ-expression kernel

From `TETRAGNOS/lambda_engine/logos_lambda_core.py`. The expression grammar
mirrors the Python classes `Variable`, `Value`, `Constant`, `Abstraction`,
`Application`, `SufficientReason`; `OntologicalType` is the enum of the four
base tags; `FunctionType` pairs a domain with a codomain. The Python
`FunctionType.__init__` annotation says the domain is an `OntologicalType`,
but nothing enforces it and `TypeChecker.check_type` explicitly tests
`isinstance(func_type.domain, OntologicalType)`, so the embedded type grammar
allows an arbitrary type in domain position, as the dynamic code does. -/

/-- `OntologicalType`: the four base tags 𝔼, 𝔾, 𝕋, Prop. -/
inductive OntoTag
  | existence
  | goodness
  | truth
  | prop
  deriving DecidableEq, Repr

/-- Types: a base tag or a `FunctionType` (domain, codomain). -/
inductive LType
  | base (tag : OntoTag)
  | arrow (dom cod : LType)
  deriving DecidableEq, Repr

/-- λ-expressions (`LogosExpr` and its subclasses). `lam` is the Python
`Abstraction`. A Python `Constant` carries an *optional* definition; the
`Option` is encoded by the two constructors `const` (no definition) and
`constD` (with definition), which every embedded operation treats alike, as
the Python code treats any `Constant`. -/
inductive LExpr
  | var (name : String) (ont_type : OntoTag)
  | value (val : String) (ont_type : OntoTag)
  | const (name : String) (const_type : LType)
  | constD (name : String) (const_type : LType) (defn : LExpr)
  | lam (var_name : String) (var_type : OntoTag) (body : LExpr)
  | app (func arg : LExpr)
  | sr (source_type target_type : OntoTag) (srval : Int)
  deriving DecidableEq, Repr

/-- `Evaluator.substitute` (lines 605-640): textual substitution, blocked only
at an abstraction binding the very same name; no renaming is performed. -/
def substitute : LExpr → String → LExpr → LExpr
  | .var name t, var_name, val => if name = var_name then val else .var name t
  | .value v t, _, _ => .value v t
  | .const n t, _, _ => .const n t
  | .constD n t d, _, _ => .constD n t d
  | .sr s t v, _, _ => .sr s t v
  | .lam x τ body, var_name, val =>
      if x = var_name then .lam x τ body
      else .lam x τ (substitute body var_name val)
  | .app f a, var_name, val =>
      .app (substitute f var_name val) (substitute a var_name val)

/-- Free variables of an expression (the standard notion, used to state the
capture-avoidance claim; `Constant` is treated as atomic, as the evaluator
does). -/
def freeVars : LExpr → List String
  | .var name _ => [name]
  | .value _ _ => []
  | .const _ _ => []
  | .constD _ _ _ => []
  | .sr _ _ _ => []
  | .lam x _ body => (freeVars body).filter (fun y => y ≠ x)
  | .app f a => freeVars f ++ freeVars a

/-- The type-checker environment: the Python `dict` `self.env`, modeled as a
partial map (`env[k] = v` is point update, `del env[k]` maps to `none`). -/
def TEnv : Type := String → Option LType

/-- Point update of an environment (also models `del` via `none`). -/
def envSet (env : TEnv) (x : String) (v : Option LType) : TEnv :=
  fun y => if y = x then v else env y

/-- `Prop → Prop`. -/
def prop_to_prop : LType := .arrow (.base .prop) (.base .prop)

/-- `Prop → Prop → Prop`. -/
def prop_to_prop_to_prop : LType := .arrow (.base .prop) (.arrow (.base .prop) (.base .prop))

/-- `TypeChecker._initialize_environment`: logical connectives, axioms and the
two sufficient-reason operators. -/
def tcInitEnv : TEnv := fun name =>
  if name = "NOT" then some prop_to_prop
  else if name = "AND" ∨ name = "OR" ∨ name = "IMPLIES" ∨ name = "EQ" then
    some prop_to_prop_to_prop
  else if name = "AxiomAOI" ∨ name = "AxiomAEC" ∨ name = "AxiomAEF" then some (.base .prop)
  else if name = "SR_E_G" then some (.arrow (.base .existence) (.base .goodness))
  else if name = "SR_G_T" then some (.arrow (.base .goodness) (.base .truth))
  else none

/-- `TypeChecker.check_type` (lines 465-532), with the mutation of `self.env`
made explicit: the result pairs the returned type (`none` = type error) with
the environment as it stands when the call returns. The `Abstraction` case
saves the old binding, binds the variable, checks the body, then restores or
deletes; the `Application` case rejects a non-function type, then checks the
argument and compares it with the domain *only when the domain is a base tag*
(`isinstance(func_type.domain, OntologicalType)`). -/
def check_type : TEnv → LExpr → Option LType × TEnv
  | env, .var name t => (some ((env name).getD (.base t)), env)
  | env, .value _ t => (some (.base t), env)
  | env, .const _ t => (some t, env)
  | env, .constD _ t _ => (some t, env)
  | env, .lam x τ body =>
      let old := env x
      let r := check_type (envSet env x (some (.base τ))) body
      let env2 := envSet r.2 x old
      match r.1 with
      | some bt => (some (.arrow (.base τ) bt), env2)
      | none => (none, env2)
  | env, .app f a =>
      let rf := check_type env f
      match rf.1 with
      | some (.arrow dom cod) =>
          let ra := check_type rf.2 a
          match dom with
          | .base tag => if ra.1 = some (.base tag) then (some cod, ra.2) else (none, ra.2)
          | .arrow _ _ => (some cod, ra.2)
      | _ => (none, rf.2)
  | env, .sr s t v =>
      if s = .existence ∧ t = .goodness ∧ v = 3 then (some (.arrow (.base s) (.base t)), env)
      else if s = .goodness ∧ t = .truth ∧ v = 2 then (some (.arrow (.base s) (.base t)), env)
      else (none, env)

/-- `create_core_axioms`: the axiom body `EQ ei ID` (the other two are
analogous). -/
def aoiExpr : LExpr :=
  .app (.app (.const "EQ" prop_to_prop_to_prop) (.value "ei" .existence)) (.value "ID" .prop)

/-- `EQ og NC`. -/
def aecExpr : LExpr :=
  .app (.app (.const "EQ" prop_to_prop_to_prop) (.value "og" .goodness)) (.value "NC" .prop)

/-- `EQ at EM`. -/
def aefExpr : LExpr :=
  .app (.app (.const "EQ" prop_to_prop_to_prop) (.value "at" .truth)) (.value "EM" .prop)

/-- `Evaluator._initialize_environment`: connectives and axioms as `Constant`
expressions. -/
def evalEnv : String → Option LExpr := fun name =>
  if name = "NOT" then some (.const "NOT" prop_to_prop)
  else if name = "AND" then some (.const "AND" prop_to_prop_to_prop)
  else if name = "OR" then some (.const "OR" prop_to_prop_to_prop)
  else if name = "IMPLIES" then some (.const "IMPLIES" prop_to_prop_to_prop)
  else if name = "EQ" then some (.const "EQ" prop_to_prop_to_prop)
  else if name = "AxiomAOI" then some (.constD "AxiomAOI" (.base .prop) aoiExpr)
  else if name = "AxiomAEC" then some (.constD "AxiomAEC" (.base .prop) aecExpr)
  else if name = "AxiomAEF" then some (.constD "AxiomAEF" (.base .prop) aefExpr)
  else none

/-- The `isinstance(func, Constant)` block of `Evaluator.evaluate`: the `NOT`
truth-table on `Value` arguments; any other constant application is returned
unchanged. -/
def applyConstant (nm : String) (f' a' : LExpr) : Option LExpr :=
  if nm = "NOT" then
    match a' with
    | .value v vt =>
        if v = "TrueProp" then some (.value "FalseProp" .prop)
        else if v = "FalseProp" then some (.value "TrueProp" .prop)
        else some (.app f' (.value v vt))
    | a'' => some (.app f' a'')
  else some (.app f' a')

/-- `Evaluator.evaluate` (lines 556-603), instrumented with an explicit step
bound: the Python method recurses with *no* fuel parameter, so the recursion
is modeled by charging one unit per call to `evaluate`; `eval_fuel n e = none`
means the call tree did not finish within `n` nested calls. The Python
behavior on `e` is: terminate with `r` iff `eval_fuel n e = some r` for some
`n`; run forever iff `eval_fuel n e = none` for every `n`. -/
def eval_fuel : ℕ → LExpr → Option LExpr
  | 0, _ => none
  | _ + 1, .var name t => some ((evalEnv name).getD (.var name t))
  | _ + 1, .value v t => some (.value v t)
  | _ + 1, .const nm t => some (.const nm t)
  | _ + 1, .constD nm t d => some (.constD nm t d)
  | _ + 1, .sr s t v => some (.sr s t v)
  | n + 1, .lam x τ body =>
      match eval_fuel n body with
      | some b => some (.lam x τ b)
      | none => none
  | n + 1, .app f a =>
      match eval_fuel n f with
      | none => none
      | some f' =>
          match eval_fuel n a with
          | none => none
          | some a' =>
              match f' with
              | .lam x _ body => eval_fuel n (substitute body x a')
              | .const nm t => applyConstant nm (.const nm t) a'
              | .constD nm t d => applyConstant nm (.constD nm t d) a'
              | _ => some (.app f' a')

/-! ### Lemmas about the kernel -/

/-- The self-application body `x x`. -/
def omegaBody : LExpr := .app (.var "x" .prop) (.var "x" .prop)

/-- `ω = λx. x x`. -/
def omegaFun : LExpr := .lam "x" .prop omegaBody

/-- `Ω = ω ω`, the classic diverging term. -/
def omegaTerm : LExpr := .app omegaFun omegaFun

lemma evalEnv_x : evalEnv "x" = none := rfl

lemma eval_fuel_omegaBody (n : ℕ) : eval_fuel (n + 2) omegaBody = some omegaBody := by
  show eval_fuel ((n + 1) + 1) (.app (.var "x" .prop) (.var "x" .prop)) = _
  rw [eval_fuel]
  have hv : eval_fuel (n + 1) (.var "x" .prop) = some (.var "x" .prop) := by
    rw [eval_fuel, evalEnv_x]; rfl
  rw [hv]
  rfl

lemma eval_fuel_omegaFun (n : ℕ) : eval_fuel (n + 3) omegaFun = some omegaFun := by
  show eval_fuel ((n + 2) + 1) (.lam "x" .prop omegaBody) = _
  rw [eval_fuel, eval_fuel_omegaBody n]
  rfl

lemma subst_omegaBody : substitute omegaBody "x" omegaFun = omegaTerm := by
  decide

/-- `Evaluator.evaluate` never finishes on `Ω`, whatever the step bound. -/
lemma eval_fuel_omega (n : ℕ) : eval_fuel n omegaTerm = none := by
  suffices h : ∀ m, eval_fuel (m + 3) omegaTerm = none by
    match n with
    | 0 => rfl
    | 1 => decide
    | 2 => decide
    | m + 3 => exact h m
  intro m
  induction m with
  | zero => decide
  | succ k ih =>
      have hf := eval_fuel_omegaFun k
      show eval_fuel ((k + 3) + 1) omegaTerm = none
      rw [omegaTerm, eval_fuel, hf]
      simp only [subst_omegaBody]
      exact ih

lemma envSet_restore (env : TEnv) (x : String) (v : Option LType) :
    envSet (envSet env x v) x (env x) = env := by
  funext y
  by_cases h : y = x
  · subst h; simp [envSet]
  · simp [envSet, h]

/-- Frame lemma: every path through `check_type` hands back the environment it
was given — the `Abstraction` case restores the saved binding (or deletes the
temporary one) before returning. -/
lemma check_type_env : ∀ (e : LExpr) (env : TEnv), (check_type env e).2 = env := by
  intro e
  induction e with
  | var name t => intro env; rfl
  | value v t => intro env; rfl
  | const n t => intro env; rfl
  | constD n t d ih => intro env; rfl
  | lam x τ body ih =>
      intro env
      have hr := ih (envSet env x (some (.base τ)))
      rw [check_type]
      cases hb : check_type (envSet env x (some (.base τ))) body with
      | mk bty env1 =>
          have henv1 : env1 = envSet env x (some (.base τ)) := by rw [← hr, hb]
          cases bty <;> simp only [] <;> rw [henv1, envSet_restore]
  | app f a ihf iha =>
      intro env
      rw [check_type]
      cases hf : check_type env f with
      | mk fty env1 =>
          have henv1 : env1 = env := by rw [← ihf env, hf]
          cases fty with
          | none => simpa using henv1
          | some ft =>
              cases ft with
              | base tag => simpa using henv1
              | arrow dom cod =>
                  cases ha : check_type env1 a with
                  | mk aty env2 =>
                      have henv2 : env2 = env1 := by rw [← iha env1, ha]
                      cases dom with
                      | base tag =>
                          by_cases hmatch : aty = some (.base tag) <;>
                            simp [hmatch, henv2, henv1]
                      | arrow d1 d2 => simp [henv2, henv1]
  | sr s t v =>
      intro env
      rw [check_type]
      split_ifs <;> rfl

/-- Substitution leaves a term without free occurrences of the variable
unchanged (shadowing is respected). -/
lemma substitute_not_free : ∀ (M : LExpr) (x : String) (v : LExpr),
    x ∉ freeVars M → substitute M x v = M := by
  intro M
  induction M with
  | var name t =>
      intro x v h
      have hne : name ≠ x := fun he => h (by simp [freeVars, he])
      simp [substitute, hne]
  | value s t => intro x w h; rfl
  | const n t => intro x w h; rfl
  | constD n t d ih => intro x w h; rfl
  | lam y τ body ih =>
      intro x v h
      by_cases hxy : y = x
      · simp [substitute, hxy]
      · have hxny : x ≠ y := fun he => hxy he.symm
        have hb : x ∉ freeVars body := by
          intro hx
          exact h (by simp only [freeVars]; exact List.mem_filter.mpr ⟨hx, by simpa using hxny⟩)
        simp [substitute, hxy, ih x v hb]
  | app f a ihf iha =>
      intro x v h
      simp only [freeVars, List.mem_append] at h
      push_neg at h
      simp [substitute, ihf x v h.1, iha x v h.2]
  | sr s t v => intro x w h; rfl

/-! ### Claims C4-C6 and C10 -/

/-- C4 (counterexample). The claim says evaluation always either terminates
within a caller-supplied fuel budget or fails with `EvaluationTimeout`.
`Evaluator.evaluate` takes no fuel parameter and raises no timeout; on the
self-application `Ω = (λx. x x)(λx. x x)` no finite number of nested
`evaluate` calls produces a result — the evaluation runs forever. -/
theorem C4_counterexample : ¬ ∃ (fuel : ℕ) (r : LExpr), eval_fuel fuel omegaTerm = some r := by
  rintro ⟨fuel, r, h⟩
  rw [eval_fuel_omega fuel] at h
  exact Option.noConfusion h

/-- C4 (amended). Evaluation has no fuel budget and no `EvaluationTimeout`:
atomic expressions (values, sufficient-reason operators, constants) evaluate
to themselves in one call, but evaluation of `Ω` never completes under any
bound on the number of nested `evaluate` calls — it is genuinely unbounded. -/
theorem C4_evaluation_unbounded :
    (∀ (n : ℕ) (s : String) (t : OntoTag), eval_fuel (n + 1) (.value s t) = some (.value s t)) ∧
    (∀ (n : ℕ) (s t : OntoTag) (v : Int), eval_fuel (n + 1) (.sr s t v) = some (.sr s t v)) ∧
    (∀ (n : ℕ) (nm : String) (ty : LType), eval_fuel (n + 1) (.const nm ty) = some (.const nm ty)) ∧
    (∀ n : ℕ, eval_fuel n omegaTerm = none) :=
  ⟨fun _ _ _ => rfl, fun _ _ _ _ => rfl, fun _ _ _ => rfl, eval_fuel_omega⟩

/-- C5 (counterexample). The claim says no free variable of the replacement
ever becomes bound after substitution. Substituting `y` for `x` in `λy. x`
yields `λy. y`: the free variable `y` of the replacement is captured by the
inner binder (the result has no free occurrence of `y` at all). -/
theorem C5_counterexample :
    substitute (.lam "y" .existence (.var "x" .existence)) "x" (.var "y" .existence)
        = .lam "y" .existence (.var "y" .existence) ∧
    "y" ∈ freeVars (.var "y" .existence : LExpr) ∧
    "x" ∈ freeVars (.lam "y" .existence (.var "x" .existence) : LExpr) ∧
    "y" ∉ freeVars (substitute (.lam "y" .existence (.var "x" .existence)) "x"
        (.var "y" .existence)) := by decide

/-- C5 (amended). Substitution is blocked at an abstraction binding the same
name, and a term with no free occurrence of the variable is left unchanged
(shadowing is respected) — but substitution is textual, not capture-avoiding:
a free variable of the replacement can be captured by a differently-named
binder (see the counterexample). -/
theorem C5_substitution_shadowing (x : String) (τ : OntoTag) (M v : LExpr) :
    substitute (.lam x τ M) x v = .lam x τ M ∧
    (x ∉ freeVars M → substitute M x v = M) :=
  ⟨by simp [substitute], substitute_not_free M x v⟩

/-- C5 (witness): the amended theorem applied to `λx. x` (blocked binder) and
to the closed term `c` (no free occurrence). -/
theorem C5_witness :
    substitute (.lam "x" .prop (.var "x" .prop)) "x" (.value "q" .prop)
        = .lam "x" .prop (.var "x" .prop) ∧
    substitute (.value "c" .prop) "x" (.value "q" .prop) = .value "c" .prop :=
  ⟨(C5_substitution_shadowing "x" .prop (.var "x" .prop) (.value "q" .prop)).1,
   (C5_substitution_shadowing "x" .prop (.value "c" .prop) (.value "q" .prop)).2 (by decide)⟩

/-- A `Constant` whose declared type has a *function type* in domain
position — expressible because Python does not enforce the domain
annotation. -/
def funcArrowDomain : LExpr := .const "F" (.arrow prop_to_prop (.base .prop))

/-- An argument of base type 𝔼, which does not match the domain above. -/
def argMismatch : LExpr := .value "v" .existence

/-- C6 (counterexample). The claim says a domain/argument type mismatch is
always reported, including when the domain is itself a function type. When
the domain is a function type, `check_type` skips the comparison
(`isinstance(func_type.domain, OntologicalType)` fails) and returns the
codomain: applying `F : (Prop → Prop) → Prop` to `v : 𝔼` type-checks with
result `Prop` even though `𝔼 ≠ Prop → Prop`. -/
theorem C6_counterexample :
    (check_type tcInitEnv (.app funcArrowDomain argMismatch)).1 = some (.base .prop) ∧
    (check_type tcInitEnv argMismatch).1 = some (.base .existence) ∧
    (LType.base .existence) ≠ prop_to_prop := ⟨rfl, rfl, by decide⟩

/-- C6 (amended). Checking an application `(f a)` errors when `f`'s type is
not a function type; when the domain is a base tag it succeeds, with result
the codomain, exactly when `a`'s type equals that tag; but when the domain is
itself a function type the comparison is skipped and the codomain is returned
regardless of `a`'s type. -/
theorem C6_application_typing (env : TEnv) (f a : LExpr) :
    (check_type env (.app f a)).1 =
      match (check_type env f).1 with
      | some (.arrow (.base tag) cod) =>
          if (check_type env a).1 = some (.base tag) then some cod else none
      | some (.arrow (.arrow d1 d2) cod) => some cod
      | _ => none := by
  rw [check_type]
  cases hf : check_type env f with
  | mk fty env1 =>
      have henv1 : env1 = env := by rw [← check_type_env f env, hf]
      cases fty with
      | none => rfl
      | some ft =>
          cases ft with
          | base tag => rfl
          | arrow dom cod =>
              subst henv1
              cases dom with
              | base tag =>
                  by_cases hm : (check_type env1 a).1 = some (.base tag) <;> simp [hm]
              | arrow d1 d2 => rfl

/-- C10 (confirmed). `check_type` leaves the typing environment unchanged:
the abstraction case temporarily binds the bound variable, and on return
every name is mapped exactly as before the call. -/
theorem C10_check_type_frame (env : TEnv) (e : LExpr) : (check_type env e).2 = env :=
  check_type_env e env

/-! ## Knowledge store

From `ARCHON/Data Storage/knowledge_store.py`. The claims concern
`add_relation` (lines 511-567), `get_relations` (lines 570-641), the node
cache touched by `store_node`/`get_node` (lines 179-212, 300-384), and the
k-d tree (`KDTree`, lines 31-174) with its service wrappers
`find_nearest_by_trinity` / `find_nearest_by_position` (lines 644-689).

The imported `OntologicalNode` class lives in `..ontology.ontological_node`,
a module absent from the source tree; per the spec (§3) its `relationships`
attribute is the ordered sequence of outgoing `(kind, target_id, metadata)`
triples and `add_relationship` appends one. Relation metadata dictionaries
are insertion-ordered association lists over a JSON-ish scalar type. -/

/-- A JSON-ish metadata scalar: string or number. -/
inductive MVal
  | str (s : String)
  | num (q : ℚ)
  deriving DecidableEq, Repr

/-- A Python metadata dict: insertion-ordered association list, unique keys. -/
abbrev Meta := List (String × MVal)

/-- Dict update `m[k] = v`: replace in place when the key exists, else
append — the semantics of a Python dict literal `{**m, k: v}`. -/
def dictInsert (m : Meta) (k : String) (v : MVal) : Meta :=
  if (m.map Prod.fst).contains k then m.map (fun p => if p.1 = k then (k, v) else p)
  else m ++ [(k, v)]

/-- `{**(metadata or {}), "strength": strength}` from `add_relation`. -/
def withStrength (metadata : Meta) (strength : ℚ) : Meta :=
  dictInsert metadata "strength" (.num strength)

/-- `metadata.get("strength", 1.0)` from `get_relations`. -/
def metaStrength (m : Meta) : MVal :=
  ((m.find? (fun p => p.1 == "strength")).map Prod.snd).getD (.num 1)

/-- Modelled from the spec: a cached `OntologicalNode`, restricted to its
`relationships` attribute (§3: ordered sequence of outgoing
`(kind, target_id, metadata)` triples) — the class itself is imported from a
module missing from the tree. -/
structure KNode where
  relationships : List (String × String × Meta)
  deriving DecidableEq, Repr

/-- A row of the SQLite `relations` table. `rid` models the primary key
`f"{source}_{type}_{target}_{uuid.uuid4().hex[:4]}"`: every call draws a
fresh random suffix, modeled by a counter (collisions of the 4-hex suffix
aside), so `INSERT OR REPLACE` on that fresh key appends a new row. -/
structure DBRel where
  rid : ℕ
  source_id : String
  target_id : String
  relation_type : String
  weight : ℚ
  metadata : Meta
  deriving DecidableEq, Repr

/-- The store state relevant to the relation claims: the node cache
`self.nodes`, the `relations` table, the id counter, and
`persistence_enabled`. Node existence is modeled through the cache (the
claims' scenarios keep both endpoints cached from creation; the DB `nodes`
table and its lazy loads are not involved). -/
structure KStore where
  nodes : List (String × KNode)
  db_relations : List DBRel
  next_rid : ℕ
  persistence_enabled : Bool
  deriving DecidableEq, Repr

/-- `self.nodes.get(node_id)`. -/
def nodesGet (st : KStore) (id : String) : Option KNode :=
  (st.nodes.find? (fun p => p.1 == id)).map Prod.snd

/-- The cache update inside `add_relation`: the first triple with the same
`(kind, target)` is *replaced* by the caller's metadata plus strength (the
old metadata is dropped), else the triple is appended
(`add_relationship`). -/
def upsertRel (rels : List (String × String × Meta)) (kind target : String) (m : Meta) :
    List (String × String × Meta) :=
  match rels.findIdx? (fun r => r.1 == kind && r.2.1 == target) with
  | some i => rels.set i (kind, target, m)
  | none => rels ++ [(kind, target, m)]

/-- `FractalKnowledgeStore.add_relation` (lines 511-567): endpoint check,
cache upsert, then `INSERT OR REPLACE` of a row under a fresh random id
(which therefore *appends*; the caller's metadata is stored in the row
without the strength, which goes to the `weight` column). -/
def add_relation (st : KStore) (source_id target_id relation_type : String)
    (strength : ℚ) (metadata : Meta) : Bool × KStore :=
  if (nodesGet st source_id).isNone ∨ (nodesGet st target_id).isNone then (false, st)
  else
    let st1 :=
      match nodesGet st source_id with
      | some nd =>
          { st with nodes := st.nodes.map (fun p : String × KNode =>
              if p.1 = source_id then
                (p.1, KNode.mk (upsertRel nd.relationships relation_type target_id
                        (withStrength metadata strength)))
              else p) }
      | none => st
    if st1.persistence_enabled then
      (true, { st1 with
        db_relations := st1.db_relations ++
          [⟨st1.next_rid, source_id, target_id, relation_type, strength, metadata⟩],
        next_rid := st1.next_rid + 1 })
    else (true, st1)

/-- An `OntologicalRelation` as built by `get_relations`. -/
structure ORel where
  source_id : String
  target_id : String
  relation_type : String
  strength : MVal
  metadata : Meta
  deriving DecidableEq, Repr

/-- The DB half of `get_relations`: walk the matching rows in table order,
appending those whose `(source_id, target_id, relation_type)` triple has not
been seen. -/
def rowsDedup : List DBRel → List ORel × List (String × String × String) →
    List ORel × List (String × String × String)
  | [], acc => acc
  | r :: rs, acc =>
      if (r.source_id, r.target_id, r.relation_type) ∈ acc.2 then rowsDedup rs acc
      else rowsDedup rs
        (acc.1 ++ [⟨r.source_id, r.target_id, r.relation_type, .num r.weight, r.metadata⟩],
         acc.2 ++ [(r.source_id, r.target_id, r.relation_type)])

/-- `FractalKnowledgeStore.get_relations` (lines 570-641): relations from the
cached source node (outgoing directions), then the SQL query filtered by
direction and kind, deduplicated against the cache results by
`(source_id, target_id, relation_type)`. -/
def get_relations (st : KStore) (node_id : String) (rt_filter : Option String)
    (direction : String) : List ORel :=
  let cache_rels : List ORel :=
    match nodesGet st node_id with
    | some nd =>
        if direction = "outgoing" ∨ direction = "both" then
          (nd.relationships.filter (fun r => match rt_filter with
             | none => true
             | some rt => r.1 == rt)).map
            (fun r => ⟨node_id, r.2.1, r.1, metaStrength r.2.2, r.2.2⟩)
        else []
    | none => []
  if st.persistence_enabled then
    let rows := st.db_relations.filter (fun r =>
      (decide ((direction = "outgoing" ∨ direction = "both") ∧ r.source_id = node_id) ||
       decide ((direction = "incoming" ∨ direction = "both") ∧ r.target_id = node_id)) &&
      (match rt_filter with
       | none => true
       | some rt => r.relation_type == rt))
    (rowsDedup rows (cache_rels,
      cache_rels.map (fun r => (r.source_id, r.target_id, r.relation_type)))).1
  else cache_rels

/-- A store with existing nodes `A` and `B` and no relations. -/
def twoNodeStore : KStore := ⟨[("A", ⟨[]⟩), ("B", ⟨[]⟩)], [], 0, true⟩

/-- One `add_relation(A, B, "entails", 0.7, m)` call. -/
def addEntails (st : KStore) (m : Meta) : KStore :=
  (add_relation st "A" "B" "entails" (7/10) m).2

/-- `n` identical `add_relation(A, B, "entails", 0.7)` calls. -/
def addEntailsN : ℕ → KStore
  | 0 => twoNodeStore
  | n + 1 => addEntails (addEntailsN n) []

/-- Explicit form of the store after `n + 1` identical `add_relation` calls:
one cache triple, but `n + 1` rows in the `relations` table. -/
lemma addEntailsN_spec : ∀ n : ℕ, addEntailsN (n + 1) =
    ⟨[("A", ⟨[("entails", "B", [("strength", MVal.num (7/10))])]⟩), ("B", ⟨[]⟩)],
     (List.range (n + 1)).map (fun i => ⟨i, "A", "B", "entails", 7/10, []⟩), n + 1, true⟩ := by
  intro n
  induction n with
  | zero =>
      show addEntails twoNodeStore [] = _
      simp [addEntails, add_relation, nodesGet, upsertRel, withStrength, dictInsert,
        twoNodeStore, List.range_succ]
  | succ k ih =>
      show addEntails (addEntailsN (k + 1)) [] = _
      rw [ih]
      simp [addEntails, add_relation, nodesGet, upsertRel, withStrength, dictInsert,
        List.range_succ]

/-- Rows whose key triple is already seen contribute nothing. -/
lemma rowsDedup_skip : ∀ (rows : List DBRel) (acc : List ORel × List (String × String × String)),
    (∀ r ∈ rows, (r.source_id, r.target_id, r.relation_type) ∈ acc.2) →
    rowsDedup rows acc = acc := by
  intro rows
  induction rows with
  | nil => intro acc h; rfl
  | cons r rs ih =>
      intro acc h
      rw [rowsDedup, if_pos (h r (by simp))]
      exact ih acc (fun x hx => h x (by simp [hx]))

/-! ### Claims C7-C9 -/

/-- C7 (counterexample). The claim says relations are upserted by
`(source_id, kind, target_id)` so the store holds exactly one relation for
that key, the caller's metadata *merging* with the existing row. After two
identical `add_relation(A, B, "entails", 0.7)` calls the `relations` table
holds **two** rows for that key (each call inserts under a fresh random id);
and a second call with empty metadata *drops* the first call's `"note"`
field instead of merging it. -/
theorem C7_counterexample :
    ((addEntailsN 2).db_relations.filter (fun r =>
      r.source_id == "A" && r.relation_type == "entails" && r.target_id == "B")).length = 2 ∧
    (nodesGet (addEntails (addEntails twoNodeStore [("note", MVal.str "hi")]) []) "A").map
        KNode.relationships
      = some [("entails", "B", [("strength", MVal.num (7/10))])] ∧
    ([("note", MVal.str "hi"), ("strength", MVal.num (7/10))] : Meta)
      ≠ [("strength", MVal.num (7/10))] := by
  refine ⟨rfl, rfl, by decide⟩

/-- C7 (amended). After any number of identical
`add_relation(A, B, "entails", 0.7)` calls: the cached source node holds
exactly one `(kind, target)` triple whose metadata is the caller's metadata
plus strength (replaced, not merged); the `relations` table holds one row per
call, all with the same `(source, kind, target)` key; and
`relations_of(A, kind = "entails")` nevertheless returns exactly one
relation, because `get_relations` deduplicates the rows against the cache
result by `(source_id, target_id, relation_type)`. -/
theorem C7_relation_upsert (n : ℕ) :
    (nodesGet (addEntailsN (n + 1)) "A").map KNode.relationships
      = some [("entails", "B", [("strength", MVal.num (7/10))])] ∧
    (addEntailsN (n + 1)).db_relations.length = n + 1 ∧
    (∀ r ∈ (addEntailsN (n + 1)).db_relations,
      r.source_id = "A" ∧ r.target_id = "B" ∧ r.relation_type = "entails") ∧
    get_relations (addEntailsN (n + 1)) "A" (some "entails") "outgoing"
      = [⟨"A", "B", "entails", .num (7/10), [("strength", .num (7/10))]⟩] := by
  rw [addEntailsN_spec n]
  refine ⟨rfl, by simp, ?_, ?_⟩
  · intro r hr
    simp only [List.mem_map, List.mem_range] at hr
    obtain ⟨i, -, rfl⟩ := hr
    exact ⟨rfl, rfl, rfl⟩
  · rw [get_relations]
    simp only [nodesGet]
    rw [List.filter_eq_self.mpr ?hall]
    case hall =>
      intro a ha
      simp only [List.mem_map, List.mem_range] at ha
      obtain ⟨i, -, rfl⟩ := ha
      rfl
    rw [rowsDedup_skip _ _ ?hseen]
    case hseen =>
      intro r hr
      simp only [List.mem_map, List.mem_range] at hr
      obtain ⟨i, -, rfl⟩ := hr
      simp
    rfl

/-- C7 (witness): the amended theorem applied after one call, at the single
concrete row of the `relations` table. -/
theorem C7_witness :
    (⟨0, "A", "B", "entails", 7/10, []⟩ : DBRel).source_id = "A" ∧
    (⟨0, "A", "B", "entails", 7/10, []⟩ : DBRel).target_id = "B" ∧
    (⟨0, "A", "B", "entails", 7/10, []⟩ : DBRel).relation_type = "entails" :=
  (C7_relation_upsert 0).2.2.1 ⟨0, "A", "B", "entails", 7/10, []⟩
    (by rw [addEntailsN_spec 0]; simp)

/-! ### Node cache (C8) -/

/-- The node cache of `FractalKnowledgeStore`: `cache_size` is read from the
config (`self.cache_size = self.config.get("cache_size", 1000)`) but never
consulted again — the source marks eviction as unimplemented
(`# TODO: Implement cache eviction`, `# TODO: Add cache eviction logic if
cache size is exceeded`). Nodes are abstracted to an opaque payload. -/
structure NodeCache where
  cache_size : ℕ
  nodes : List (String × ℕ)
  deriving DecidableEq, Repr

/-- The cache effect of `store_node`: `self.nodes[node.node_id] = node`,
a plain dict assignment; no eviction, no access tick. -/
def store_node_cache (st : NodeCache) (id : String) (node : ℕ) : NodeCache :=
  { st with nodes :=
      if (st.nodes.map Prod.fst).contains id then
        st.nodes.map (fun p => if p.1 = id then (id, node) else p)
      else st.nodes ++ [(id, node)] }

/-- C8. The claim says the cache holds at most `cache_size` entries with LRU
eviction. With `cache_size = 2`, storing three distinct nodes leaves three
entries in the cache: nothing is ever evicted and `cache_size` is ignored. -/
theorem C8_cache_unbounded :
    (store_node_cache (store_node_cache (store_node_cache ⟨2, []⟩ "a" 0) "b" 1) "c" 2).nodes.length
      = 3 ∧
    (store_node_cache (store_node_cache (store_node_cache ⟨2, []⟩ "a" 0) "b" 1) "c" 2).cache_size
      = 2 ∧ 3 > 2 :=
  ⟨rfl, rfl, by norm_num⟩

/-! ### k-d tree index (C9) -/

/-- A k-d tree (`KDNode`; `None` children are `leaf`). -/
inductive KDT
  | leaf
  | node (node_id : String) (point : List ℚ) (left right : KDT)
  deriving DecidableEq, Repr

/-- `KDTree._insert`: recursive insertion splitting on `axis = depth % k`;
duplicate ids are accepted and simply inserted again. -/
def kd_insert (k : ℕ) : KDT → String → List ℚ → ℕ → KDT
  | .leaf, id, pt, _ => .node id pt .leaf .leaf
  | .node nid npt l r, id, pt, depth =>
      if pt.getD (depth % k) 0 < npt.getD (depth % k) 0 then
        .node nid npt (kd_insert k l id pt (depth + 1)) r
      else
        .node nid npt l (kd_insert k r id pt (depth + 1))

/-- `sum((a - b) ** 2 for a, b in zip(node.point, point))`. -/
def dist_sq (p q : List ℚ) : ℚ := ((p.zip q).map (fun ab => (ab.1 - ab.2) ^ 2)).sum

/-- The `heapq` ordering on `(-dist_sq, node_id)` tuples: lexicographic. -/
def heapLe (a b : ℚ × String) : Bool :=
  decide (a.1 < b.1) || (a.1 == b.1 && decide (a.2 ≤ b.2))

/-- Ordered insertion. The `heapq` heap `nearest` is represented by its
entries sorted ascending in tuple order, so the heap root (`nearest[0]`, the
minimum) is the head; `heappush` and `heapreplace` then agree with this
representation as multisets of entries. -/
def heapPush : List (ℚ × String) → (ℚ × String) → List (ℚ × String)
  | [], x => [x]
  | y :: ys, x => if heapLe x y then x :: y :: ys else y :: heapPush ys x

/-- The heap update of `_k_nearest_neighbors`: push while fewer than `k`
entries; else replace the root when the new point is strictly closer than the
current farthest (`-dist_sq > nearest[0][0]`). -/
def knn_step (kk : ℕ) (nearest : List (ℚ × String)) (dsq : ℚ) (nid : String) :
    List (ℚ × String) :=
  if nearest.length < kk then heapPush nearest (-dsq, nid)
  else if -dsq > (nearest.headD (0, "")).1 then heapPush nearest.tail (-dsq, nid)
  else nearest

/-- `KDTree._k_nearest_neighbors`: heap update, then the closer subtree, then
the farther subtree only when the heap is not full or the splitting plane is
closer than the current farthest (`diff ** 2 < -nearest[0][0]`). -/
def knn_go (k : ℕ) (point : List ℚ) (kk : ℕ) : KDT → ℕ → List (ℚ × String) →
    List (ℚ × String)
  | .leaf, _, nearest => nearest
  | .node nid npt l r, depth, nearest =>
      let nearest1 := knn_step kk nearest (dist_sq npt point) nid
      let diff := point.getD (depth % k) 0 - npt.getD (depth % k) 0
      if diff < 0 then
        let nearest2 := knn_go k point kk l (depth + 1) nearest1
        if nearest2.length < kk ∨ diff ^ 2 < -(nearest2.headD (0, "")).1 then
          knn_go k point kk r (depth + 1) nearest2
        else nearest2
      else
        let nearest2 := knn_go k point kk r (depth + 1) nearest1
        if nearest2.length < kk ∨ diff ^ 2 < -(nearest2.headD (0, "")).1 then
          knn_go k point kk l (depth + 1) nearest2
        else nearest2

/-- `KDTree.k_nearest_neighbors`: run the search, then convert and sort
ascending by distance (Python's stable `list.sort(key=distance)`, modeled by
the stable `mergeSort`). The Python result carries `math.sqrt(dist_sq)`;
`sqrt` has no executable rational form and is strictly monotone, so the
squared distance stands in for it — membership, multiplicity and order are
exactly those of the source. -/
def k_nearest_neighbors (k : ℕ) (t : KDT) (point : List ℚ) (kk : ℕ) :
    List (String × ℚ) :=
  match t with
  | .leaf => []
  | _ =>
      let nearest := knn_go k point kk t 0 []
      (nearest.map (fun p => (p.2, -p.1))).mergeSort (fun a b => decide (a.2 ≤ b.2))

/-- `FractalKnowledgeStore.find_nearest_by_trinity` (lines 644-666):
`k = max(1, k)`, then delegate to the 3-dimensional index. *No deduplication
by id is performed at the service layer.* -/
def find_nearest_by_trinity (trinity_index : KDT) (pt : List ℚ) (kk : ℕ) :
    List (String × ℚ) :=
  k_nearest_neighbors 3 trinity_index pt (max 1 kk)

/-- The same id inserted at two tree locations, as happens when a node's
coordinates change (`store_node` re-inserts; the tree is insertion-only). -/
def demoTree : KDT := kd_insert 3 (kd_insert 3 .leaf "A" [0, 0, 0] 0) "A" [1, 1, 1] 0

lemma heapPush_length : ∀ (l : List (ℚ × String)) (x : ℚ × String),
    (heapPush l x).length = l.length + 1 := by
  intro l
  induction l with
  | nil => intro x; rfl
  | cons y ys ih =>
      intro x
      rw [heapPush]
      by_cases h : heapLe x y = true
      · rw [if_pos h]; simp
      · rw [if_neg h]; simp [ih]

lemma knn_step_length (kk : ℕ) (hkk : 1 ≤ kk) (nearest : List (ℚ × String))
    (h : nearest.length ≤ kk) (dsq : ℚ) (nid : String) :
    (knn_step kk nearest dsq nid).length ≤ kk := by
  unfold knn_step
  split_ifs with h1 h2
  · rw [heapPush_length]; omega
  · rw [heapPush_length, List.length_tail]; omega
  · exact h

lemma knn_go_length (k : ℕ) (point : List ℚ) (kk : ℕ) (hkk : 1 ≤ kk) :
    ∀ (t : KDT) (depth : ℕ) (nearest : List (ℚ × String)), nearest.length ≤ kk →
      (knn_go k point kk t depth nearest).length ≤ kk := by
  intro t
  induction t with
  | leaf => intro depth nearest h; exact h
  | node nid npt l r ihl ihr =>
      intro depth nearest h
      rw [knn_go]
      have h1 := knn_step_length kk hkk nearest h (dist_sq npt point) nid
      by_cases hd : point.getD (depth % k) 0 - npt.getD (depth % k) 0 < 0
      · rw [if_pos hd]
        have h2 := ihl (depth + 1) _ h1
        dsimp only
        split_ifs with hc
        · exact ihr (depth + 1) _ h2
        · exact h2
      · rw [if_neg hd]
        have h2 := ihr (depth + 1) _ h1
        dsimp only
        split_ifs with hc
        · exact ihl (depth + 1) _ h2
        · exact h2

/-- C9 (counterexample). The claim says the service-level nearest query
deduplicates by id. With id `A` inserted at `[0,0,0]` and `[1,1,1]`, the
query `find_nearest_by_trinity([0,0,0], 2)` returns `A` **twice** (at squared
distances `0` and `3`): no deduplication happens. -/
theorem C9_counterexample :
    find_nearest_by_trinity demoTree [0, 0, 0] 2 = [("A", 0), ("A", 3)] ∧
    ¬ ((find_nearest_by_trinity demoTree [0, 0, 0] 2).map Prod.fst).Nodup := by
  have hval : find_nearest_by_trinity demoTree [0, 0, 0] 2 = [("A", 0), ("A", 3)] := by
    norm_num [find_nearest_by_trinity, k_nearest_neighbors, knn_go, knn_step, demoTree,
      kd_insert, dist_sq, heapPush, heapLe, List.mergeSort]
  refine ⟨hval, ?_⟩
  rw [hval]
  decide

/-- C9 (amended). `find_nearest_by_trinity` returns the raw k-d tree search
results: the sequence is sorted ascending by distance and has at most
`max 1 k` entries, but an id inserted at multiple tree locations can appear
multiple times — the service layer performs no deduplication. -/
theorem C9_no_dedup_sorted (t : KDT) (pt : List ℚ) (kk : ℕ) :
    List.Pairwise (fun a b : String × ℚ => a.2 ≤ b.2) (find_nearest_by_trinity t pt kk) ∧
    (find_nearest_by_trinity t pt kk).length ≤ max 1 kk := by
  unfold find_nearest_by_trinity k_nearest_neighbors
  cases t with
  | leaf => simp
  | node nid npt l r =>
      constructor
      · have hs := @List.sorted_mergeSort (String × ℚ)
          (fun a b : String × ℚ => decide (a.2 ≤ b.2))
          (fun a b c hab hbc => by
            simp only [decide_eq_true_eq] at *
            exact le_trans hab hbc)
          (fun a b => by
            simp only [Bool.or_eq_true, decide_eq_true_eq]
            exact le_total a.2 b.2)
          ((knn_go 3 pt (max 1 kk) (.node nid npt l r) 0 []).map (fun p => (p.2, -p.1)))
        exact hs.imp (fun h => by simpa using h)
      · rw [List.length_mergeSort, List.length_map]
        exact knn_go_length 3 pt (max 1 kk) (le_max_left 1 kk) (.node nid npt l r) 0 []
          (by simp)

end Logos
